import Mathlib

/-!
Verification development for the bridgeview rendering repository
(`render.py`, `render/modify.py`).

The Python source drives an external 3D host (Blender) : the pure geometry
(bounding sphere construction, nearest-terrain queries, the camera rejection
loop, the scale/translate propagation, the vertex-dissolution passes) is
embedded here over exact arithmetic.  Floating-point quantities are modelled
as rationals where the code only adds, multiplies, compares, or divides, and
as reals where the code takes square roots or trigonometric functions.
Effectful operators (`bpy.ops.transform.*`) are embedded by the trace of
calls they issue, with their documented geometric meaning.
-/

/-- A 3-component vector, the shape of `mathutils.Vector` / numpy 3-arrays. -/
structure Vec3 (α : Type) where
  x : α
  y : α
  z : α
deriving DecidableEq, Repr

instance {α : Type} [Add α] : Add (Vec3 α) := ⟨fun a b => ⟨a.x + b.x, a.y + b.y, a.z + b.z⟩⟩

instance {α : Type} [Sub α] : Sub (Vec3 α) := ⟨fun a b => ⟨a.x - b.x, a.y - b.y, a.z - b.z⟩⟩

instance {α : Type} [Neg α] : Neg (Vec3 α) := ⟨fun a => ⟨-a.x, -a.y, -a.z⟩⟩

instance {α : Type} [Zero α] : Zero (Vec3 α) := ⟨⟨0, 0, 0⟩⟩

/-- Component access, `v[j]` on a 3-vector. -/
def Vec3.comp {α : Type} (v : Vec3 α) (j : Fin 3) : α :=
  if j.val = 0 then v.x else if j.val = 1 then v.y else v.z

/-- Squared Euclidean distance.  The source compares Euclidean lengths of
float vectors; all such comparisons factor through the squared form. -/
def sqDist {α : Type} [LinearOrderedField α] (p q : Vec3 α) : α :=
  (p.x - q.x) ^ 2 + (p.y - q.y) ^ 2 + (p.z - q.z) ^ 2

/-- Euclidean distance between rational points, as a real. -/
noncomputable def distE (p q : Vec3 ℚ) : ℝ :=
  Real.sqrt ((sqDist p q : ℚ) : ℝ)

/-- Modelled from the spec: the repository builds its spatial index with the
external `mathutils.kdtree.KDTree` (`landscape_tree`, `render.py`), whose
`find` returns the inserted point nearest to the query by Euclidean distance.
The k-d tree itself is not repository code, so the nearest-neighbour
selection is modelled here directly: a linear scan keeping the point (with
its insertion index) of least squared distance — the same argmin, since
Euclidean distance and its square are order-isomorphic on nonnegatives.
Earlier points win ties. -/
def nearestIdxAux {α : Type} [LinearOrderedField α] (q : Vec3 α) :
    List (Vec3 α) → (Vec3 α × ℕ) → ℕ → Vec3 α × ℕ
  | [], best, _ => best
  | p :: ps, best, i =>
      nearestIdxAux q ps (if sqDist p q < sqDist best.1 q then (p, i) else best) (i + 1)

/-- Modelled from the spec: `SpatialIndex.nearest` on the point set used to
build the index.  Zero points yields `none` (the spec's `EmptyIndexError`;
the external library returns a `(None, None, None)` triple there). -/
def nearestQ {α : Type} [LinearOrderedField α] (pts : List (Vec3 α)) (q : Vec3 α) :
    Option (Vec3 α × ℕ) :=
  match pts with
  | [] => none
  | p :: ps => some (nearestIdxAux q ps (p, 0) 1)

/-- Modelled from the spec: the full `KDTree.find` result, a
`(co, index, dist)` triple — position of the nearest inserted point, its
insertion index, and the Euclidean distance from the query to it.  On an
empty tree the library returns a `(None, None, None)` triple; that case is
modelled by a zero triple and is never exercised by the claims. -/
noncomputable def kdFind (pts : List (Vec3 ℝ)) (q : Vec3 ℝ) : Vec3 ℝ × ℕ × ℝ :=
  match nearestQ pts q with
  | none => (⟨0, 0, 0⟩, 0, 0)
  | some (p, i) => (p, i, Real.sqrt (sqDist p q))

/-! ### BoundingSphere (`render.py`, `BoundingSphere.__init__`) -/

/-- A 3x3 linear part plus a translation: the action of an object's 4x4
`matrix_world` on a point (`matrix_world * Vector(corner)`). -/
structure Affine3 where
  m : Fin 3 → Fin 3 → ℚ
  t : Vec3 ℚ

def applyAffine (A : Affine3) (v : Vec3 ℚ) : Vec3 ℚ :=
  ⟨A.m 0 0 * v.x + A.m 0 1 * v.y + A.m 0 2 * v.z + A.t.x,
   A.m 1 0 * v.x + A.m 1 1 * v.y + A.m 1 2 * v.z + A.t.y,
   A.m 2 0 * v.x + A.m 2 1 * v.y + A.m 2 2 * v.z + A.t.z⟩

/-- An input object as `BoundingSphere` reads it: its local bounding-box
corners `bound_box[0..7]` and its world transform. -/
structure SceneObj where
  bound_box : Fin 8 → Vec3 ℚ
  matrix_world : Affine3

/-- An object's actual world-space bounding-box corner,
`matrix_world * Vector(bound_box[i])`. -/
def worldCorner (o : SceneObj) (i : Fin 8) : Vec3 ℚ :=
  applyAffine o.matrix_world (o.bound_box i)

/-- The corner layout Blender documents for `Object.bound_box`: index bit 2
selects min/max along x, corners cycle `(min,min), (min,max), (max,max),
(max,min)` in (y,z) over the low two bits.  Used to build concrete
axis-aligned test objects. -/
def blenderBox (lo hi : Vec3 ℚ) (i : Fin 8) : Vec3 ℚ :=
  ⟨if 4 ≤ i.val then hi.x else lo.x,
   if 2 ≤ i.val % 4 then hi.y else lo.y,
   if i.val % 4 = 1 ∨ i.val % 4 = 2 then hi.z else lo.z⟩

/-- `minmax(index, axis)` from `BoundingSphere.__init__`:
`is_max = (index >> axis) % 2`, and for axis 0 the bit is XORed with
`(index >> 1) % 2` ("cyclic index" comment in the source). -/
def isMaxSel (i : Fin 8) (j : Fin 3) : Bool :=
  let b := (i.val >>> j.val) % 2
  let b := if j.val = 0 then b ^^^ ((i.val >>> 1) % 2) else b
  b == 1

/-- `max` / `min` of a nonempty list folded from its head, as the Python
builtins compute over the comprehension. -/
def foldExtreme (isMax : Bool) (a : ℚ) (l : List ℚ) : ℚ :=
  l.foldl (fun acc v => if isMax then Max.max acc v else Min.min acc v) a

/-- Composite corner `box[i]` of `BoundingSphere.__init__`: per axis `j`, the
min or max (per `minmax(i, j)`) over all objects of world corner `i`'s
component `j`.  Python's `min`/`max` raise on an empty object list (the
spec's `EmptyObjectSetError`); the empty case here returns a junk origin and
is excluded by the claims' nonemptiness hypotheses. -/
def boxCorner (objs : List SceneObj) (i : Fin 8) : Vec3 ℚ :=
  match objs with
  | [] => ⟨0, 0, 0⟩
  | o :: os =>
      let comp := fun (j : Fin 3) =>
        foldExtreme (isMaxSel i j) ((worldCorner o i).comp j)
          (os.map (fun x => (worldCorner x i).comp j))
      ⟨comp 0, comp 1, comp 2⟩

def vecSum (l : List (Vec3 ℚ)) : Vec3 ℚ := l.foldl (· + ·) 0

def vecScale (c : ℚ) (v : Vec3 ℚ) : Vec3 ℚ := ⟨c * v.x, c * v.y, c * v.z⟩

/-- The corner indices `range(8)`. -/
def octIdx : List (Fin 8) := [0, 1, 2, 3, 4, 5, 6, 7]

/-- `np.sum(box, axis=0)/8` when no centre is supplied, else the supplied
centre. -/
def sphereCentre (objs : List SceneObj) (centreArg : Option (Vec3 ℚ)) : Vec3 ℚ :=
  match centreArg with
  | some c => c
  | none => vecScale (1 / 8) (vecSum (octIdx.map (boxCorner objs)))

/-- The squared distances from the centre to the eight composite corners,
folded to their maximum (all are nonnegative, so the 0 seed is inert). -/
def sphereRadiusSq (objs : List SceneObj) (c : Vec3 ℚ) : ℚ :=
  (octIdx.map (fun i => sqDist (boxCorner objs i) c)).foldl Max.max 0

/-- `np.max(np.linalg.norm(box - self.centre, axis=1))`: the largest
Euclidean distance from the centre to a composite corner. -/
noncomputable def sphereRadius (objs : List SceneObj) (c : Vec3 ℚ) : ℝ :=
  (octIdx.map (fun i => distE (boxCorner objs i) c)).foldl Max.max 0

structure BSphere where
  centre : Vec3 ℚ
  radius : ℝ

/-- `BoundingSphere(objects, centre=None)`. -/
noncomputable def mkBoundingSphere (objs : List SceneObj) (centreArg : Option (Vec3 ℚ)) :
    BSphere :=
  ⟨sphereCentre objs centreArg, sphereRadius objs (sphereCentre objs centreArg)⟩

/-- The identity world transform. -/
def idAffine : Affine3 := ⟨fun i j => if i = j then 1 else 0, 0⟩

/-- The two axis-aligned boxes (identity world transforms) witnessing that
the composite-corner sphere can miss an actual corner: one box spans
x 0..10, z -10..0, the other x -1..0, z 0..8, both y 0..1. -/
def objA : SceneObj := ⟨blenderBox ⟨0, 0, -10⟩ ⟨10, 1, 0⟩, idAffine⟩

def objB : SceneObj := ⟨blenderBox ⟨-1, 0, 0⟩ ⟨0, 1, 8⟩, idAffine⟩

/-- A unit-radius cube about the origin, for witness instances. -/
def cubeObj : SceneObj := ⟨blenderBox ⟨-1, -1, -1⟩ ⟨1, 1, 1⟩, idAffine⟩

/-! ### Camera sampling (`render.py`, `Render.random_camera`)

The rejection loop draws `(distance, theta, phi)` each iteration from the
process RNG; the draws are injected here as a stream `ℕ → CamDraw`.  A
normal draw can take any real value; a uniform `theta` draw lies in the
configured `camera_theta` interval, recorded by `legalDraw`. -/

/-- The per-iteration random draws of the rejection loop. -/
structure CamDraw where
  dist : ℝ
  theta : ℝ
  phi : ℝ

/-- The sampler's environment: the bounding sphere's centre, the terrain
vertices backing `landscape_tree` (world space), and the configured
`camera_theta` range. -/
structure CamEnv where
  centre : Vec3 ℝ
  terrain : List (Vec3 ℝ)
  thetaLo : ℝ
  thetaHi : ℝ

/-- A draw the uniform `theta` sampler can actually produce. -/
def legalDraw (env : CamEnv) (d : CamDraw) : Prop :=
  env.thetaLo ≤ d.theta ∧ d.theta ≤ env.thetaHi

/-- The candidate camera location of one loop iteration:
`sphere.centre + distance * (sin(theta)*sin(-phi), sin(theta)*cos(phi), cos(theta))`. -/
noncomputable def candidateLoc (env : CamEnv) (d : CamDraw) : Vec3 ℝ :=
  ⟨env.centre.x + d.dist * (Real.sin d.theta * Real.sin (-d.phi)),
   env.centre.y + d.dist * (Real.sin d.theta * Real.cos d.phi),
   env.centre.z + d.dist * Real.cos d.theta⟩

/-- The loop's acceptance test, `location[2] > closest_vertex[2]`.
`closest_vertex` is the tuple returned by `self.landscape_tree.find(location)`,
i.e. `(co, index, dist)`, so component `[2]` is the *distance* from the
candidate to the nearest terrain vertex, not that vertex's z-coordinate. -/
noncomputable def accepts (env : CamEnv) (d : CamDraw) : Prop :=
  (candidateLoc env d).z > (kdFind env.terrain (candidateLoc env d)).2.2

/-- The acceptance test the spec states: candidate z strictly above the
nearest terrain point's z-coordinate.  Stated from the spec's words for
comparison with `accepts`. -/
noncomputable def acceptsSpec (env : CamEnv) (d : CamDraw) : Prop :=
  (candidateLoc env d).z > (kdFind env.terrain (candidateLoc env d)).1.z

/-- The `while True:` rejection loop, observed through `fuel` iterations
starting at draw index `i`: it exits with the first accepted candidate's
location, and yields nothing if no draw among the `fuel` inspected is
accepted.  The source loop itself has no fuel parameter — `none` for every
fuel is exactly "the loop never exits". -/
noncomputable def loopFuel (env : CamEnv) (draws : ℕ → CamDraw) : ℕ → ℕ → Option (Vec3 ℝ)
  | 0, _ => none
  | fuel + 1, i =>
      haveI := Classical.propDecidable (accepts env (draws i))
      if accepts env (draws i) then some (candidateLoc env (draws i))
      else loopFuel env draws fuel (i + 1)

/-- Log-normal focal length draw, `camera_lens[0] * exp(normal(0, camera_lens[1]))`. -/
noncomputable def focalLength (lensMedian g : ℝ) : ℝ := lensMedian * Real.exp g

/-- `min_distance = sphere.radius / tan(angle_y / 2)`. -/
noncomputable def minDistance (radius angleY : ℝ) : ℝ := radius / Real.tan (angleY / 2)

/-- Environment for the C1 failing input: a single terrain vertex at
`(0,0,3)`, sphere centre at the origin, `camera_theta = [0, 0]`. -/
noncomputable def envA : CamEnv := ⟨⟨0, 0, 0⟩, [⟨0, 0, 3⟩], 0, 0⟩

/-- Draw stream for the C1 failing input: every iteration draws
`distance = 2`, `theta = 0`, `phi = 0`, placing the candidate at `(0,0,2)`. -/
noncomputable def drawsA : ℕ → CamDraw := fun _ => ⟨2, 0, 0⟩

/-- Environment for the C5 counterexample: terrain vertex at the origin,
sphere centre at the origin, `camera_theta = [pi/2, pi/2]` — every candidate
has z = 0 while the distance to the nearest vertex is nonnegative, so no
candidate ever passes the acceptance test. -/
noncomputable def envB : CamEnv := ⟨⟨0, 0, 0⟩, [⟨0, 0, 0⟩], Real.pi / 2, Real.pi / 2⟩

/-- Draw stream for the C5 counterexample: `distance = 1`, `theta = pi/2`,
`phi = 0` at every iteration — all draws legal for `envB`. -/
noncomputable def drawsB : ℕ → CamDraw := fun _ => ⟨1, Real.pi / 2, 0⟩

/-! ### Group document persistence (`render/modify.py`, `Scale.write_groups`) -/

/-- The three named object groups of a `ScaleGroupSet`
(`self.groups` with keys scale / min / max). -/
structure ScaleGroupSet where
  scale : List String
  grpMin : List String
  grpMax : List String
deriving DecidableEq, Repr

/-- The on-disk group document.  `open(filename, 'w')` truncates the file the
moment it is opened, before anything is written: `truncated` is that state
(an empty file, no longer valid JSON). -/
inductive FileState (γ : Type) where
  | doc : List (String × γ) → FileState γ
  | truncated : FileState γ
deriving DecidableEq

/-- Python's `name in data` over the JSON object's keys. -/
def hasKey {γ : Type} (data : List (String × γ)) (k : String) : Bool :=
  data.any (fun e => e.1 == k)

/-- Python's `data[name] = v` on a dict parsed from JSON: replace in place if
the key exists, else append. -/
def setKey {γ : Type} : List (String × γ) → String → γ → List (String × γ)
  | [], k, v => [(k, v)]
  | e :: es, k, v => if e.1 = k then (k, v) :: es else e :: setKey es k v

/-- `Scale.write_groups`: load the document, reopen the file in write mode
(truncating it), then either dump the updated document or raise.  Returns the
call's outcome together with the final on-disk state; on the conflict branch
the file has already been truncated when the error is raised. -/
def writeGroups {γ : Type} (data : List (String × γ)) (groups : γ) (nm : String)
    (overwrite : Bool) : Except String Unit × FileState γ :=
  if !hasKey data nm || overwrite then
    (Except.ok (), FileState.doc (setKey data nm groups))
  else
    (Except.error "Name already exists, specify overwrite to write anyway",
     FileState.truncated)

def gsA : ScaleGroupSet := ⟨["s1"], ["m1"], ["x1"]⟩

def gsB : ScaleGroupSet := ⟨["s2"], ["m2"], ["x2"]⟩

/-! ### Scale propagation (`render/modify.py`, `Scale.scale`)

`helpers.bounding_box` returns the (min corner, max corner) pair of an
object; the scene is modelled as that box per object name.  `scale_object`
calls `bpy.ops.transform.resize` on all vertices of one object with a resize
vector equal to 1 off the chosen axis, which rescales the object's extent
along that axis about the host's pivot point; the pivot (Blender's median or
bounding-box-centre, both inside the box) is injected as a parameter.  The
procedure's effect is its trace: one resize factor per non-reference member
of the `scale` group, and one net translation vector per group (`0` for a
group receiving no `translate_group` call). -/

/-- An object's world bounding box, `helpers.bounding_box`'s
`(min corner, max corner)` rows. -/
structure BBox where
  lo : Vec3 ℚ
  hi : Vec3 ℚ
deriving DecidableEq, Repr

/-- Overwrite component `j`, leaving the other components unchanged. -/
def setComp {α : Type} (v : Vec3 α) (j : Fin 3) (a : α) : Vec3 α :=
  ⟨if j.val = 0 then a else v.x,
   if j.val = 1 then a else v.y,
   if j.val = 2 then a else v.z⟩

/-- `(vector) * axis` with `axis` the one-hot boolean mask built from
`axis[axis_index] = True`: keeps component `j`, zeroes the others. -/
def maskAxis {α : Type} [Zero α] (v : Vec3 α) (j : Fin 3) : Vec3 α :=
  ⟨if j.val = 0 then v.x else 0,
   if j.val = 1 then v.y else 0,
   if j.val = 2 then v.z else 0⟩

/-- `helpers.bounding_box` returns, per axis, the (min, max) of the object's
vertex coordinates, so its two rows are componentwise sorted.  Scene objects
are modelled by an arbitrary corner pair; every box `Scale.scale` reads goes
through this normalisation, which is the identity on well-formed boxes. -/
def sortBox (b : BBox) : BBox :=
  ⟨⟨Min.min b.lo.x b.hi.x, Min.min b.lo.y b.hi.y, Min.min b.lo.z b.hi.z⟩,
   ⟨Max.max b.lo.x b.hi.x, Max.max b.lo.y b.hi.y, Max.max b.lo.z b.hi.z⟩⟩

/-- A `helpers.bounding_box(bpy.data.objects[nm])` read of the scene. -/
def readBox (scene : String → BBox) (nm : String) : BBox := sortBox (scene nm)

/-- The bounding box after `scale_object(obj, f, axis)` followed by
`helpers.bounding_box`: the resize vector is `axis*(value - 1) + ones`, so
every vertex's axis-`j` coordinate maps by `x ↦ p + f*(x - p)` and the other
components are untouched.  A tight box's new extent along `j` is spanned by
the images of its two endpoints, re-sorted into (min, max) rows — a negative
factor reflects the box about the pivot. -/
def resizeBox (b : BBox) (p : Vec3 ℚ) (f : ℚ) (j : Fin 3) : BBox :=
  let a := p.comp j + f * (b.lo.comp j - p.comp j)
  let c := p.comp j + f * (b.hi.comp j - p.comp j)
  ⟨setComp b.lo j (Min.min a c), setComp b.hi j (Max.max a c)⟩

/-- `end_ref`: the reference box after `scale_object(reference, value, axis)`. -/
def endRefBox (scene : String → BBox) (pivot : String → Vec3 ℚ) (value : ℚ) (j : Fin 3)
    (reference : String) : BBox :=
  resizeBox (readBox scene reference) (pivot reference) value j

/-- `translate[0] = ((end_ref - start_ref) * axis)[0]`: the masked shift of
the reference box's min corner. -/
def refShiftLo (scene : String → BBox) (pivot : String → Vec3 ℚ) (value : ℚ) (j : Fin 3)
    (reference : String) : Vec3 ℚ :=
  maskAxis ((endRefBox scene pivot value j reference).lo - (readBox scene reference).lo) j

/-- `translate[1]`: the masked shift of the reference box's max corner. -/
def refShiftHi (scene : String → BBox) (pivot : String → Vec3 ℚ) (value : ℚ) (j : Fin 3)
    (reference : String) : Vec3 ℚ :=
  maskAxis ((endRefBox scene pivot value j reference).hi - (readBox scene reference).hi) j

/-- The observable effect of one `Scale.scale` call: the
`end_length/start_length` resize factor issued per non-reference member of
the `scale` group, and the net translation applied to each of the three
groups (zero for the group that receives no `translate_group` call). -/
structure ScaleEffects where
  memberFactors : List (String × ℚ)
  minShift : Vec3 ℚ
  scaleShift : Vec3 ℚ
  maxShift : Vec3 ℚ
deriving DecidableEq, Repr

/-- `Scale.scale(value, axis_index, reference, base)` as its effect trace.
The member factor divides exact rationals where numpy divides floats; for a
member of zero extent along the axis the source computes `0.0/0.0` (NaN) —
here the total rational division yields `0`; in both arithmetics the factor
is not `1`. -/
def scaleFactors (scene : String → BBox) (pivot : String → Vec3 ℚ) (groups : ScaleGroupSet)
    (value : ℚ) (j : Fin 3) (reference : String) : List (String × ℚ) :=
  (groups.scale.filter (fun nm => nm ≠ reference)).map (fun nm =>
    let startRef := readBox scene reference
    let endRef := endRefBox scene pivot value j reference
    let sb := readBox scene nm
    let startLen := sb.hi.comp j - sb.lo.comp j
    let endLen := startLen + ((endRef.hi.comp j - startRef.hi.comp j)
      - (endRef.lo.comp j - startRef.lo.comp j))
    (nm, endLen / startLen))

def scaleRun (scene : String → BBox) (pivot : String → Vec3 ℚ) (groups : ScaleGroupSet)
    (value : ℚ) (j : Fin 3) (reference : String) (base : String) :
    Except String ScaleEffects :=
  let factors := scaleFactors scene pivot groups value j reference
  let t0 := refShiftLo scene pivot value j reference
  let t1 := refShiftHi scene pivot value j reference
  if base = "min" then
    Except.ok ⟨factors, 0, -t0, t1 - t0⟩
  else if base = "scale" then
    Except.ok ⟨factors, t0, 0, t1⟩
  else if base = "max" then
    Except.ok ⟨factors, t0 - t1, -t1, 0⟩
  else
    Except.error ("Translate failed: base group name invalid " ++ base)

/-- C4 counterexample scene: every object's box is flat along axis 0
(x from 0 to 0), so the resize pivot's x-coordinate is forced to 0 and the
reference does not move at all under scaling. -/
def sceneFlat : String → BBox := fun _ => ⟨⟨0, 0, 0⟩, ⟨0, 5, 5⟩⟩

def pivotFlat : String → Vec3 ℚ := fun _ => ⟨0, 2, 2⟩

def groupsRAB : ScaleGroupSet := ⟨["r"], ["a"], ["b"]⟩

/-- C7 counterexample scene: the reference spans x 0..2, the member "m" is
flat along x (zero extent), so its `end_length/start_length` factor is 0/0. -/
def sceneM : String → BBox := fun nm =>
  if nm = "m" then ⟨⟨0, 0, 0⟩, ⟨0, 3, 3⟩⟩ else ⟨⟨0, 0, 0⟩, ⟨2, 2, 2⟩⟩

def pivotM : String → Vec3 ℚ := fun _ => ⟨1, 1, 1⟩

def groupsRM : ScaleGroupSet := ⟨["r", "m"], ["a"], ["b"]⟩

/-- Witness scene where every object spans the cube 0..2 on each axis. -/
def sceneCube : String → BBox := fun _ => ⟨⟨0, 0, 0⟩, ⟨2, 2, 2⟩⟩

/-- The claim's "exactly one of the three groups has undergone zero net
translation". -/
def exactlyOneZeroShift (e : ScaleEffects) : Prop :=
  (e.minShift = 0 ∧ e.scaleShift ≠ 0 ∧ e.maxShift ≠ 0) ∨
  (e.minShift ≠ 0 ∧ e.scaleShift = 0 ∧ e.maxShift ≠ 0) ∨
  (e.minShift ≠ 0 ∧ e.scaleShift ≠ 0 ∧ e.maxShift = 0)

/-! ### Mesh simplification (`render/modify.py`, `dissolve_near`,
`dissolve_near_selected_vertex`, `limit_dissolve`)

A mesh is its vertex list, each vertex a local-space position with its
selection flag.  `bpy.ops.mesh.dissolve_verts` merges away exactly the
selected vertices; `dissolve_near` deselects everything, selects the
vertices strictly within distance 0.5 of the given point, and dissolves
them, so the surviving vertices are the far ones, all deselected. -/

/-- `dissolve_near(point, obj)`: survivors are the vertices with
`(vert.co - point).length < 0.5` false — squared form
`sqDist < 1/4` — with their selection cleared. -/
def dissolveNearM (pt : Vec3 ℚ) (mesh : List (Vec3 ℚ × Bool)) : List (Vec3 ℚ × Bool) :=
  (mesh.map (fun v => (v.1, false))).filter (fun v => !(decide (sqDist v.1 pt < 1 / 4)))

/-- `dissolve_near_selected_vertex(obj)`: requires exactly one selected
vertex, else raises `ValueError` (the spec's `SelectionCardinalityError`). -/
def dissolveNearSelected (mesh : List (Vec3 ℚ × Bool)) :
    Except String (List (Vec3 ℚ × Bool)) :=
  match mesh.filter (fun v => v.2) with
  | [v] => Except.ok (dissolveNearM v.1 mesh)
  | _ => Except.error "Exactly one vertex must be selected."

/-- The scan of `limit_dissolve`'s inner `dissolve_next`: the first vertex in
enumeration order whose axis-`j` coordinate is below the limit. -/
def findBelow (j : Fin 3) (limit : ℚ) (mesh : List (Vec3 ℚ × Bool)) :
    Option (Vec3 ℚ × Bool) :=
  mesh.find? (fun v => decide (v.1.comp j < limit))

/-- One iteration of `limit_dissolve`'s `while dissolve_next():` loop:
dissolve around the first vertex found below the limit, or leave the mesh
unchanged when the scan finds none (the loop's exit state). -/
def stepLD (j : Fin 3) (limit : ℚ) (mesh : List (Vec3 ℚ × Bool)) : List (Vec3 ℚ × Bool) :=
  match findBelow j limit mesh with
  | some v => dissolveNearM v.1 mesh
  | none => mesh

/-- The spec's sample mesh for `limit_dissolve`: vertices at
z = -1, -1/2, 1/2, 1, none selected. -/
def meshZ : List (Vec3 ℚ × Bool) :=
  [(⟨0, 0, -1⟩, false), (⟨0, 0, -1/2⟩, false), (⟨0, 0, 1/2⟩, false), (⟨0, 0, 1⟩, false)]

/-- A mesh with exactly one selected vertex, for the C9 witness: the
selected origin, a far vertex, and a vertex within distance 0.5. -/
def meshSel : List (Vec3 ℚ × Bool) :=
  [(⟨0, 0, 0⟩, true), (⟨10, 0, 0⟩, false), (⟨0, 0, 1/4⟩, false)]

/-! ## Helper lemmas -/

lemma comp_of_zero_vec {α : Type} [Zero α] (j : Fin 3) : (0 : Vec3 α).comp j = 0 := by
  unfold Vec3.comp
  split
  · rfl
  · split <;> rfl

lemma vec_ne_zero_of_comp {α : Type} [Zero α] {v : Vec3 α} (j : Fin 3)
    (h : v.comp j ≠ 0) : v ≠ 0 := by
  intro h0
  apply h
  rw [h0, comp_of_zero_vec]

lemma maskAxis_comp_self {α : Type} [Zero α] (v : Vec3 α) (j : Fin 3) :
    (maskAxis v j).comp j = v.comp j := by
  obtain ⟨jv, hj⟩ := j
  interval_cases jv <;> rfl

lemma setComp_comp_self {α : Type} (v : Vec3 α) (j : Fin 3) (a : α) :
    (setComp v j a).comp j = a := by
  obtain ⟨jv, hj⟩ := j
  interval_cases jv <;> rfl

lemma setComp_comp_of_self {α : Type} (v : Vec3 α) (j : Fin 3) :
    setComp v j (v.comp j) = v := by
  obtain ⟨jv, hj⟩ := j
  interval_cases jv <;> rfl

lemma sortBox_lo_comp (b : BBox) (j : Fin 3) :
    (sortBox b).lo.comp j = Min.min (b.lo.comp j) (b.hi.comp j) := by
  obtain ⟨jv, hj⟩ := j
  interval_cases jv <;> rfl

lemma sortBox_hi_comp (b : BBox) (j : Fin 3) :
    (sortBox b).hi.comp j = Max.max (b.lo.comp j) (b.hi.comp j) := by
  obtain ⟨jv, hj⟩ := j
  interval_cases jv <;> rfl

lemma readBox_lo_le_hi (scene : String → BBox) (nm : String) (j : Fin 3) :
    (readBox scene nm).lo.comp j ≤ (readBox scene nm).hi.comp j := by
  unfold readBox
  rw [sortBox_lo_comp, sortBox_hi_comp]
  exact min_le_max

lemma max_sub_min_ne (l h : ℚ) (hne : l ≠ h) : Max.max l h - Min.min l h ≠ 0 := by
  rcases le_total l h with hle | hle
  · rw [max_eq_right hle, min_eq_left hle]
    exact sub_ne_zero.mpr (Ne.symm hne)
  · rw [max_eq_left hle, min_eq_right hle]
    exact sub_ne_zero.mpr hne

lemma sub_comp {α : Type} [Sub α] (a b : Vec3 α) (j : Fin 3) :
    (a - b).comp j = a.comp j - b.comp j := by
  obtain ⟨jv, hj⟩ := j
  interval_cases jv <;> rfl

lemma neg_comp {α : Type} [Neg α] (a : Vec3 α) (j : Fin 3) :
    (-a).comp j = -(a.comp j) := by
  obtain ⟨jv, hj⟩ := j
  interval_cases jv <;> rfl

lemma vec_mk_sub {α : Type} [Sub α] (a b c d e f : α) :
    Vec3.mk a b c - Vec3.mk d e f = Vec3.mk (a - d) (b - e) (c - f) := rfl

lemma vec_mk_add {α : Type} [Add α] (a b c d e f : α) :
    Vec3.mk a b c + Vec3.mk d e f = Vec3.mk (a + d) (b + e) (c + f) := rfl

lemma vec_mk_neg {α : Type} [Neg α] (a b c : α) :
    -Vec3.mk a b c = Vec3.mk (-a) (-b) (-c) := rfl

lemma vec_zero_mk {α : Type} [Zero α] : (0 : Vec3 α) = Vec3.mk 0 0 0 := rfl

lemma comp_mk_zero {α : Type} (a b c : α) : (Vec3.mk a b c).comp 0 = a := rfl

lemma comp_mk_one {α : Type} (a b c : α) : (Vec3.mk a b c).comp 1 = b := rfl

lemma comp_mk_two {α : Type} (a b c : α) : (Vec3.mk a b c).comp 2 = c := rfl

lemma maskAxis_mk_zero {α : Type} [Zero α] (a b c : α) :
    maskAxis (Vec3.mk a b c) 0 = Vec3.mk a 0 0 := rfl

lemma setComp_mk_zero {α : Type} (a b c v : α) :
    setComp (Vec3.mk a b c) 0 v = Vec3.mk v b c := rfl

lemma vec_zero_add {α : Type} [AddZeroClass α] (v : Vec3 α) : (0 : Vec3 α) + v = v := by
  show Vec3.mk _ _ _ = Vec3.mk _ _ _
  rw [Vec3.mk.injEq]
  exact ⟨zero_add _, zero_add _, zero_add _⟩

lemma vec_zero_x {α : Type} [Zero α] : (0 : Vec3 α).x = 0 := rfl

lemma vec_zero_y {α : Type} [Zero α] : (0 : Vec3 α).y = 0 := rfl

lemma vec_zero_z {α : Type} [Zero α] : (0 : Vec3 α).z = 0 := rfl

lemma vec_sub_self {α : Type} [AddGroup α] (v : Vec3 α) : v - v = 0 := by
  show Vec3.mk _ _ _ = Vec3.mk _ _ _
  rw [Vec3.mk.injEq]
  exact ⟨sub_self _, sub_self _, sub_self _⟩

lemma vec_neg_zero {α : Type} [SubtractionMonoid α] : -(0 : Vec3 α) = 0 := by
  show Vec3.mk _ _ _ = Vec3.mk _ _ _
  rw [Vec3.mk.injEq]
  exact ⟨neg_zero, neg_zero, neg_zero⟩

lemma maskAxis_zero_vec {α : Type} [Zero α] (j : Fin 3) : maskAxis (0 : Vec3 α) j = 0 := by
  unfold maskAxis
  show Vec3.mk _ _ _ = Vec3.mk _ _ _
  simp only [Vec3.mk.injEq]
  refine ⟨?_, ?_, ?_⟩ <;> split <;> rfl

lemma sqDist_self {α : Type} [LinearOrderedField α] (p : Vec3 α) : sqDist p p = 0 := by
  unfold sqDist
  ring

lemma sqDist_nonneg {α : Type} [LinearOrderedField α] (p q : Vec3 α) : 0 ≤ sqDist p q := by
  unfold sqDist
  positivity

/-! Folded maxima (the shape of `np.max` / Python `max` over a list). -/

lemma init_le_foldl_max {α : Type} [LinearOrder α] :
    ∀ (l : List α) (s : α), s ≤ l.foldl Max.max s
  | [], s => le_refl s
  | a :: l, s => le_trans (le_max_left s a) (init_le_foldl_max l (Max.max s a))

lemma le_foldl_max_of_mem {α : Type} [LinearOrder α] :
    ∀ {l : List α} {a : α} (s : α), a ∈ l → a ≤ l.foldl Max.max s := by
  intro l
  induction l with
  | nil => intro a s h; cases h
  | cons b l ih =>
      intro a s h
      rcases List.mem_cons.mp h with h | h
      · subst h
        exact le_trans (le_max_right s a) (init_le_foldl_max l (Max.max s a))
      · exact ih (Max.max s b) h

lemma foldl_max_mem_or_init {α : Type} [LinearOrder α] :
    ∀ (l : List α) (s : α), l.foldl Max.max s = s ∨ l.foldl Max.max s ∈ l := by
  intro l
  induction l with
  | nil => intro s; exact Or.inl rfl
  | cons b l ih =>
      intro s
      rcases ih (Max.max s b) with h | h
      · rcases max_choice s b with hm | hm
        · exact Or.inl (by rw [List.foldl_cons, h, hm])
        · exact Or.inr (by rw [List.foldl_cons, h, hm]; exact List.mem_cons_self b l)
      · exact Or.inr (List.mem_cons_of_mem b h)

lemma foldl_max_sqrt_cast :
    ∀ (l : List ℚ) (s : ℚ),
      (l.map (fun a : ℚ => Real.sqrt ((a : ℚ) : ℝ))).foldl Max.max (Real.sqrt ((s : ℚ) : ℝ))
        = Real.sqrt ((l.foldl Max.max s : ℚ) : ℝ) := by
  have hmono : Monotone Real.sqrt := fun x y h => Real.sqrt_le_sqrt h
  intro l
  induction l with
  | nil => intro s; rfl
  | cons a l ih =>
      intro s
      rw [List.map_cons, List.foldl_cons, List.foldl_cons, ← ih (Max.max s a),
        Rat.cast_max, hmono.map_max]

lemma sphereRadius_sqrt (objs : List SceneObj) (c : Vec3 ℚ) :
    sphereRadius objs c = Real.sqrt ((sphereRadiusSq objs c : ℚ) : ℝ) := by
  unfold sphereRadius sphereRadiusSq distE
  rw [show (octIdx.map (fun i => Real.sqrt ((sqDist (boxCorner objs i) c : ℚ) : ℝ)))
      = (octIdx.map (fun i => sqDist (boxCorner objs i) c)).map
          (fun a : ℚ => Real.sqrt ((a : ℚ) : ℝ)) by rw [List.map_map]; rfl]
  rw [show (0 : ℝ) = Real.sqrt (((0 : ℚ) : ℚ) : ℝ) by rw [Rat.cast_zero, Real.sqrt_zero]]
  exact foldl_max_sqrt_cast _ 0

/-! Properties of the nearest-point scan. -/

lemma nearestIdxAux_le_best {α : Type} [LinearOrderedField α] (q : Vec3 α) :
    ∀ (ps : List (Vec3 α)) (best : Vec3 α × ℕ) (i : ℕ),
      sqDist (nearestIdxAux q ps best i).1 q ≤ sqDist best.1 q := by
  intro ps
  induction ps with
  | nil => intro best i; exact le_refl _
  | cons p ps ih =>
      intro best i
      unfold nearestIdxAux
      by_cases hc : sqDist p q < sqDist best.1 q
      · rw [if_pos hc]
        exact le_trans (ih (p, i) (i + 1)) (le_of_lt hc)
      · rw [if_neg hc]
        exact ih best (i + 1)

lemma nearestIdxAux_le_mem {α : Type} [LinearOrderedField α] (q : Vec3 α) :
    ∀ (ps : List (Vec3 α)) (best : Vec3 α × ℕ) (i : ℕ) (p : Vec3 α), p ∈ ps →
      sqDist (nearestIdxAux q ps best i).1 q ≤ sqDist p q := by
  intro ps
  induction ps with
  | nil => intro best i p h; cases h
  | cons a ps ih =>
      intro best i p h
      rcases List.mem_cons.mp h with h | h
      · subst h
        unfold nearestIdxAux
        by_cases hc : sqDist p q < sqDist best.1 q
        · rw [if_pos hc]
          exact nearestIdxAux_le_best q ps (p, i) (i + 1)
        · rw [if_neg hc]
          exact le_trans (nearestIdxAux_le_best q ps best (i + 1)) (not_lt.mp hc)
      · unfold nearestIdxAux
        split
        · exact ih (a, i) (i + 1) p h
        · exact ih best (i + 1) p h

lemma nearestIdxAux_fst_choice {α : Type} [LinearOrderedField α] (q : Vec3 α) :
    ∀ (ps : List (Vec3 α)) (best : Vec3 α × ℕ) (i : ℕ),
      (nearestIdxAux q ps best i).1 = best.1 ∨ (nearestIdxAux q ps best i).1 ∈ ps := by
  intro ps
  induction ps with
  | nil => intro best i; exact Or.inl rfl
  | cons a ps ih =>
      intro best i
      unfold nearestIdxAux
      by_cases hc : sqDist a q < sqDist best.1 q
      · rw [if_pos hc]
        rcases ih (a, i) (i + 1) with h | h
        · exact Or.inr (by rw [h]; exact List.mem_cons_self a ps)
        · exact Or.inr (List.mem_cons_of_mem a h)
      · rw [if_neg hc]
        rcases ih best (i + 1) with h | h
        · exact Or.inl h
        · exact Or.inr (List.mem_cons_of_mem a h)

lemma distE_mono {a b c d : Vec3 ℚ} (h : sqDist a b ≤ sqDist c d) : distE a b ≤ distE c d :=
  Real.sqrt_le_sqrt (by exact_mod_cast h)

/-! ## C8 -/

/-- C8: for every non-empty point set, `nearest` returns an indexed point at
minimal Euclidean distance from the query; with a single indexed point that
point is returned for every query; building from zero points yields no
nearest point (the spec's `EmptyIndexError` case). -/
theorem c8_nearest_minimises_distance :
    (∀ (pts : List (Vec3 ℚ)) (q : Vec3 ℚ) (r : Vec3 ℚ × ℕ), nearestQ pts q = some r →
      r.1 ∈ pts ∧ ∀ p ∈ pts, distE r.1 q ≤ distE p q) ∧
    (∀ (p q : Vec3 ℚ), nearestQ [p] q = some (p, 0)) ∧
    (∀ q : Vec3 ℚ, nearestQ ([] : List (Vec3 ℚ)) q = none) := by
  refine ⟨?_, fun p q => rfl, fun q => rfl⟩
  intro pts q r hr
  match pts with
  | [] => cases hr
  | p :: ps =>
      unfold nearestQ at hr
      have hres : r = nearestIdxAux q ps (p, 0) 1 := (Option.some_inj.mp hr).symm
      constructor
      · rcases nearestIdxAux_fst_choice q ps (p, 0) 1 with h | h
        · rw [hres, h]; exact List.mem_cons_self p ps
        · rw [hres]; exact List.mem_cons_of_mem p h
      · intro p' hp'
        rcases List.mem_cons.mp hp' with h | h
        · subst h
          exact distE_mono (by rw [hres]; exact nearestIdxAux_le_best q ps (p', 0) 1)
        · exact distE_mono (by rw [hres]; exact nearestIdxAux_le_mem q ps (p, 0) 1 p' h)

/-- Witness for C8 at a concrete two-point index. -/
theorem c8_nearest_minimises_distance_witness :
    nearestQ [(⟨0, 0, 0⟩ : Vec3 ℚ), ⟨3, 0, 0⟩] ⟨1, 0, 0⟩ = some (⟨0, 0, 0⟩, 0) ∧
    ((⟨0, 0, 0⟩ : Vec3 ℚ) ∈ [(⟨0, 0, 0⟩ : Vec3 ℚ), ⟨3, 0, 0⟩] ∧
      ∀ p ∈ [(⟨0, 0, 0⟩ : Vec3 ℚ), ⟨3, 0, 0⟩],
        distE ⟨0, 0, 0⟩ ⟨1, 0, 0⟩ ≤ distE p ⟨1, 0, 0⟩) :=
  ⟨by norm_num [nearestQ, nearestIdxAux, sqDist],
   c8_nearest_minimises_distance.1 [⟨0, 0, 0⟩, ⟨3, 0, 0⟩] ⟨1, 0, 0⟩ (⟨0, 0, 0⟩, 0)
     (by norm_num [nearestQ, nearestIdxAux, sqDist])⟩

lemma mem_octIdx (i : Fin 8) : i ∈ octIdx := by
  fin_cases i <;> decide

/-! ## C10 -/

/-- C10: when an explicit centre is supplied to the bounding-sphere
constructor, the returned centre is exactly the supplied point (the
corner-mean is not used) and the radius is the maximum Euclidean distance
from that centre to the 8 composite extremal corners. -/
theorem c10_explicit_centre_is_used (objs : List SceneObj) (h : objs ≠ []) (c : Vec3 ℚ) :
    (mkBoundingSphere objs (some c)).centre = c ∧
    (∀ i : Fin 8, distE (boxCorner objs i) c ≤ (mkBoundingSphere objs (some c)).radius) ∧
    (∃ i : Fin 8, (mkBoundingSphere objs (some c)).radius = distE (boxCorner objs i) c) := by
  refine ⟨rfl, ?_, ?_⟩
  · intro i
    exact le_foldl_max_of_mem 0 (List.mem_map_of_mem _ (mem_octIdx i))
  · have hrad : (mkBoundingSphere objs (some c)).radius
        = (octIdx.map (fun i => distE (boxCorner objs i) c)).foldl Max.max 0 := rfl
    rcases foldl_max_mem_or_init (octIdx.map (fun i => distE (boxCorner objs i) c)) 0 with
      h0 | hm
    · refine ⟨0, le_antisymm ?_ ?_⟩
      · rw [hrad, h0]
        exact Real.sqrt_nonneg _
      · rw [hrad]
        exact le_foldl_max_of_mem 0 (List.mem_map_of_mem _ (mem_octIdx 0))
    · rw [hrad]
      rcases List.mem_map.mp hm with ⟨i, _, hi⟩
      exact ⟨i, hi.symm⟩

/-- Witness for C10: a unit cube with the origin supplied as centre. -/
theorem c10_explicit_centre_is_used_witness :
    (mkBoundingSphere [cubeObj] (some ⟨0, 0, 0⟩)).centre = ⟨0, 0, 0⟩ ∧
    (∀ i : Fin 8, distE (boxCorner [cubeObj] i) ⟨0, 0, 0⟩
      ≤ (mkBoundingSphere [cubeObj] (some ⟨0, 0, 0⟩)).radius) ∧
    (∃ i : Fin 8, (mkBoundingSphere [cubeObj] (some ⟨0, 0, 0⟩)).radius
      = distE (boxCorner [cubeObj] i) ⟨0, 0, 0⟩) :=
  c10_explicit_centre_is_used [cubeObj] (List.cons_ne_nil _ _) ⟨0, 0, 0⟩

/-! ## C2 -/

/-- C2 (failing input): for the two axis-aligned boxes `objA`, `objB` the
sphere built by `BoundingSphere.__init__` has radius strictly smaller than
the distance from its centre to `objA`'s actual world corner number 4
(at `(10, 0, -10)`): the claimed invariant
"radius ≥ max distance from centre to any input object's actual corner"
fails, because `minmax` applies the cyclic bit pattern to axis 0 instead of
axis 2, mixing up which corners are composited (the source's own TODO
remarks that the bounding box "is not always correct"). -/
theorem c2_sphere_misses_actual_corner :
    (mkBoundingSphere [objA, objB] none).radius
      < distE (worldCorner objA 4) (mkBoundingSphere [objA, objB] none).centre := by
  have hc : sphereCentre [objA, objB] none = ⟨9/4, 1/2, -1/2⟩ := by
    norm_num +decide [sphereCentre, octIdx, vecSum, vecScale, boxCorner, foldExtreme, isMaxSel,
      worldCorner, applyAffine, idAffine, blenderBox, objA, objB, vec_mk_add, vec_zero_add,
      min_def, max_def, vec_zero_x, vec_zero_y, vec_zero_z,
      comp_mk_zero, comp_mk_one, comp_mk_two]
  have hrsq : sphereRadiusSq [objA, objB] ⟨9/4, 1/2, -1/2⟩ = 2121/16 := by
    norm_num +decide [sphereRadiusSq, octIdx, boxCorner, foldExtreme, isMaxSel, worldCorner,
      applyAffine, idAffine, blenderBox, objA, objB, sqDist, min_def, max_def,
      vec_zero_x, vec_zero_y, vec_zero_z, comp_mk_zero, comp_mk_one, comp_mk_two]
  have hd : sqDist (worldCorner objA 4) ⟨9/4, 1/2, -1/2⟩ = 2409/16 := by
    norm_num +decide [worldCorner, applyAffine, idAffine, blenderBox, objA, sqDist,
      vec_zero_x, vec_zero_y, vec_zero_z, comp_mk_zero, comp_mk_one, comp_mk_two]
  have hshow : (mkBoundingSphere [objA, objB] none).radius
      = sphereRadius [objA, objB] (sphereCentre [objA, objB] none) := rfl
  have hcen : (mkBoundingSphere [objA, objB] none).centre = sphereCentre [objA, objB] none :=
    rfl
  rw [hshow, hcen, hc, sphereRadius_sqrt, hrsq]
  unfold distE
  rw [hd]
  refine Real.sqrt_lt_sqrt (by positivity) ?_
  exact_mod_cast (by norm_num : (2121/16 : ℚ) < 2409/16)

/-! ## C3 -/

/-- C3 (failing input): a document holding name `g1`, written to under name
`g1` with `overwrite=False`.  The conflict error is raised, but the file was
reopened in write mode before the guard ran, so the persisted document is the
truncated (empty, no longer parseable) file, not the original document: the
existing content is lost. -/
theorem c3_name_conflict_destroys_document :
    (writeGroups [("g1", gsA)] gsB "g1" false).1 =
      Except.error "Name already exists, specify overwrite to write anyway" ∧
    (writeGroups [("g1", gsA)] gsB "g1" false).2 = FileState.truncated ∧
    FileState.truncated ≠ FileState.doc [("g1", gsA)] := by
  refine ⟨rfl, rfl, ?_⟩
  intro h
  exact FileState.noConfusion h

/-! ## C4 -/

lemma resize_endpoint_mono (scene : String → BBox) (pivot : String → Vec3 ℚ) (value : ℚ)
    (j : Fin 3) (reference : String) (hf : 0 ≤ value) :
    (pivot reference).comp j
        + value * ((readBox scene reference).lo.comp j - (pivot reference).comp j)
      ≤ (pivot reference).comp j
        + value * ((readBox scene reference).hi.comp j - (pivot reference).comp j) := by
  have h1 := readBox_lo_le_hi scene reference j
  nlinarith [mul_le_mul_of_nonneg_left h1 hf]

lemma refShiftLo_comp (scene : String → BBox) (pivot : String → Vec3 ℚ) (value : ℚ)
    (j : Fin 3) (reference : String) (hf : 0 ≤ value) :
    (refShiftLo scene pivot value j reference).comp j
      = (value - 1) * ((readBox scene reference).lo.comp j - (pivot reference).comp j) := by
  simp only [refShiftLo, endRefBox, resizeBox]
  rw [maskAxis_comp_self, sub_comp, setComp_comp_self]
  rw [min_eq_left (resize_endpoint_mono scene pivot value j reference hf)]
  ring

lemma refShiftHi_comp (scene : String → BBox) (pivot : String → Vec3 ℚ) (value : ℚ)
    (j : Fin 3) (reference : String) (hf : 0 ≤ value) :
    (refShiftHi scene pivot value j reference).comp j
      = (value - 1) * ((readBox scene reference).hi.comp j - (pivot reference).comp j) := by
  simp only [refShiftHi, endRefBox, resizeBox]
  rw [maskAxis_comp_self, sub_comp, setComp_comp_self]
  rw [max_eq_right (resize_endpoint_mono scene pivot value j reference hf)]
  ring

/-- C4 (counterexample): with every box flat along the scaled axis
(x extent zero, so the resize pivot's x-coordinate coincides with the box),
a `scale(value=2, axis=0, base='scale')` call issues zero net translation to
all three groups — not exactly one group as the claim states. -/
theorem c4_flat_reference_leaves_all_groups_unmoved :
    scaleRun sceneFlat pivotFlat groupsRAB 2 0 "r" "scale" =
      Except.ok ⟨[], 0, 0, 0⟩ ∧
    ¬ exactlyOneZeroShift ⟨[], 0, 0, 0⟩ := by
  constructor
  · norm_num +decide [scaleRun, scaleFactors, sceneFlat, pivotFlat, groupsRAB, endRefBox,
      resizeBox, readBox, sortBox, refShiftLo, refShiftHi, maskAxis_mk_zero, setComp_mk_zero,
      comp_mk_zero, vec_mk_sub, vec_mk_neg, vec_zero_mk, List.filter, List.map,
      min_def, max_def]
  · intro hx
    simp only [exactlyOneZeroShift] at hx
    rcases hx with ⟨_, h, _⟩ | ⟨h, _, _⟩ | ⟨h, _, _⟩ <;> exact h rfl

/-- C4 (amended): the per-base translation formulas of `Scale.scale`, and —
for a nonnegative factor other than 1, when the reference's bounding box has
positive extent along the scaled axis and the resize pivot lies strictly
inside it — exactly one group, the chosen base, undergoes zero net
translation.  (A reference flat along the axis forces all three translations
to zero, per the counterexample; a negative factor reflects the box about
the pivot and can likewise leave several groups stationary: factor -1 about
a centred pivot maps the bounding box onto itself and moves nothing.) -/
theorem c4_translations_fix_exactly_base (scene : String → BBox) (pivot : String → Vec3 ℚ)
    (groups : ScaleGroupSet) (value : ℚ) (j : Fin 3) (reference base : String)
    (hf : 0 ≤ value) (hv : value ≠ 1)
    (hlo : (readBox scene reference).lo.comp j < (pivot reference).comp j)
    (hhi : (pivot reference).comp j < (readBox scene reference).hi.comp j) :
    (base = "scale" → scaleRun scene pivot groups value j reference base =
        Except.ok ⟨scaleFactors scene pivot groups value j reference,
          refShiftLo scene pivot value j reference, 0,
          refShiftHi scene pivot value j reference⟩ ∧
      exactlyOneZeroShift ⟨scaleFactors scene pivot groups value j reference,
          refShiftLo scene pivot value j reference, 0,
          refShiftHi scene pivot value j reference⟩) ∧
    (base = "min" → scaleRun scene pivot groups value j reference base =
        Except.ok ⟨scaleFactors scene pivot groups value j reference, 0,
          -refShiftLo scene pivot value j reference,
          refShiftHi scene pivot value j reference
            - refShiftLo scene pivot value j reference⟩ ∧
      exactlyOneZeroShift ⟨scaleFactors scene pivot groups value j reference, 0,
          -refShiftLo scene pivot value j reference,
          refShiftHi scene pivot value j reference
            - refShiftLo scene pivot value j reference⟩) ∧
    (base = "max" → scaleRun scene pivot groups value j reference base =
        Except.ok ⟨scaleFactors scene pivot groups value j reference,
          refShiftLo scene pivot value j reference
            - refShiftHi scene pivot value j reference,
          -refShiftHi scene pivot value j reference, 0⟩ ∧
      exactlyOneZeroShift ⟨scaleFactors scene pivot groups value j reference,
          refShiftLo scene pivot value j reference
            - refShiftHi scene pivot value j reference,
          -refShiftHi scene pivot value j reference, 0⟩) := by
  have hvne : value - 1 ≠ 0 := sub_ne_zero.mpr hv
  have hLc : (refShiftLo scene pivot value j reference).comp j ≠ 0 := by
    rw [refShiftLo_comp scene pivot value j reference hf]
    exact mul_ne_zero hvne (ne_of_lt (sub_neg.mpr hlo))
  have hHc : (refShiftHi scene pivot value j reference).comp j ≠ 0 := by
    rw [refShiftHi_comp scene pivot value j reference hf]
    exact mul_ne_zero hvne (ne_of_gt (sub_pos.mpr hhi))
  have hLne : refShiftLo scene pivot value j reference ≠ 0 := vec_ne_zero_of_comp j hLc
  have hHne : refShiftHi scene pivot value j reference ≠ 0 := vec_ne_zero_of_comp j hHc
  have hnegL : -refShiftLo scene pivot value j reference ≠ 0 := by
    refine vec_ne_zero_of_comp j ?_
    rw [neg_comp]
    exact neg_ne_zero.mpr hLc
  have hnegH : -refShiftHi scene pivot value j reference ≠ 0 := by
    refine vec_ne_zero_of_comp j ?_
    rw [neg_comp]
    exact neg_ne_zero.mpr hHc
  have hHL : refShiftHi scene pivot value j reference
      - refShiftLo scene pivot value j reference ≠ 0 := by
    refine vec_ne_zero_of_comp j ?_
    rw [sub_comp, refShiftHi_comp scene pivot value j reference hf,
      refShiftLo_comp scene pivot value j reference hf]
    rw [show (value - 1) * ((readBox scene reference).hi.comp j - (pivot reference).comp j)
        - (value - 1) * ((readBox scene reference).lo.comp j - (pivot reference).comp j)
        = (value - 1)
          * ((readBox scene reference).hi.comp j - (readBox scene reference).lo.comp j)
        by ring]
    exact mul_ne_zero hvne (ne_of_gt (sub_pos.mpr (lt_trans hlo hhi)))
  have hLH : refShiftLo scene pivot value j reference
      - refShiftHi scene pivot value j reference ≠ 0 := by
    refine vec_ne_zero_of_comp j ?_
    rw [sub_comp, refShiftHi_comp scene pivot value j reference hf,
      refShiftLo_comp scene pivot value j reference hf]
    rw [show (value - 1) * ((readBox scene reference).lo.comp j - (pivot reference).comp j)
        - (value - 1) * ((readBox scene reference).hi.comp j - (pivot reference).comp j)
        = (value - 1)
          * ((readBox scene reference).lo.comp j - (readBox scene reference).hi.comp j)
        by ring]
    exact mul_ne_zero hvne (ne_of_lt (sub_neg.mpr (lt_trans hlo hhi)))
  refine ⟨?_, ?_, ?_⟩ <;> intro hb <;> subst hb
  · refine ⟨?_, Or.inr (Or.inl ⟨hLne, rfl, hHne⟩)⟩
    simp [scaleRun]
  · refine ⟨?_, Or.inl ⟨rfl, hnegL, hHL⟩⟩
    simp [scaleRun]
  · refine ⟨?_, Or.inr (Or.inr ⟨hLH, hnegH, rfl⟩)⟩
    simp [scaleRun]

/-- The model reproduces the reflecting-factor behaviour of the program:
factor -1 about the pivot x = 1 maps the reference box (x 0..2) onto
itself, so `translate` is zero and all three groups are stationary — the
reason the amended C4 statement restricts to nonnegative factors. -/
theorem scaleRun_reflection_all_groups_stationary :
    scaleRun sceneM pivotM groupsRAB (-1) 0 "r" "scale" =
      Except.ok ⟨[], 0, 0, 0⟩ := by
  norm_num +decide [scaleRun, scaleFactors, sceneM, pivotM, groupsRAB, endRefBox, resizeBox,
    readBox, sortBox, refShiftLo, refShiftHi, maskAxis_mk_zero, setComp_mk_zero, comp_mk_zero,
    vec_mk_sub, vec_mk_neg, vec_zero_mk, List.filter, List.map, min_def, max_def]

/-- Witness for C4 at a concrete nondegenerate reference (box x 0..2, pivot
x = 1, factor 2, base `min`). -/
theorem c4_translations_fix_exactly_base_witness :
    scaleRun sceneM pivotM groupsRAB 2 0 "r" "min" =
      Except.ok ⟨scaleFactors sceneM pivotM groupsRAB 2 0 "r", 0,
        -refShiftLo sceneM pivotM 2 0 "r",
        refShiftHi sceneM pivotM 2 0 "r" - refShiftLo sceneM pivotM 2 0 "r"⟩ ∧
    exactlyOneZeroShift ⟨scaleFactors sceneM pivotM groupsRAB 2 0 "r", 0,
        -refShiftLo sceneM pivotM 2 0 "r",
        refShiftHi sceneM pivotM 2 0 "r" - refShiftLo sceneM pivotM 2 0 "r"⟩ :=
  (c4_translations_fix_exactly_base sceneM pivotM groupsRAB 2 0 "r" "min"
    (by norm_num)
    (by norm_num)
    (by norm_num +decide [readBox, sortBox, sceneM, pivotM, comp_mk_zero, min_def, max_def])
    (by norm_num +decide [readBox, sortBox, sceneM, pivotM, comp_mk_zero, min_def, max_def])).2.1
    rfl

/-! ## C7 -/

/-- C7 (counterexample): with `factor = 1` and a `scale`-group member `m`
whose box is flat along the scaled axis, the member's resize factor is
`0/0` — `0` in total rational arithmetic, NaN in the source's float
arithmetic, in neither case `1` — so the call is not the claimed no-op. -/
theorem c7_flat_member_gets_degenerate_factor :
    scaleRun sceneM pivotM groupsRM 1 0 "r" "scale" =
      Except.ok ⟨[("m", 0)], 0, 0, 0⟩ ∧ (0 : ℚ) ≠ 1 := by
  constructor
  · norm_num +decide [scaleRun, scaleFactors, sceneM, pivotM, groupsRM, endRefBox, resizeBox,
      readBox, sortBox, refShiftLo, refShiftHi, maskAxis_mk_zero, setComp_mk_zero, comp_mk_zero,
      vec_mk_sub, vec_mk_neg, vec_zero_mk, List.filter, List.map, min_def, max_def]
  · norm_num

/-- C7 (amended): a `factor = 1` call translates no group, and every member
with nonzero extent along the scaled axis receives resize factor exactly 1;
a member flat along the axis receives the degenerate `0/0` factor instead. -/
theorem c7_factor_one_is_noop (scene : String → BBox) (pivot : String → Vec3 ℚ)
    (groups : ScaleGroupSet) (j : Fin 3) (reference base : String) (e : ScaleEffects)
    (hok : scaleRun scene pivot groups 1 j reference base = Except.ok e) :
    e.minShift = 0 ∧ e.scaleShift = 0 ∧ e.maxShift = 0 ∧
    ∀ nm f, (nm, f) ∈ e.memberFactors →
      (scene nm).lo.comp j ≠ (scene nm).hi.comp j → f = 1 := by
  have hend : endRefBox scene pivot 1 j reference = readBox scene reference := by
    simp only [endRefBox, resizeBox]
    rw [show (pivot reference).comp j
        + 1 * ((readBox scene reference).lo.comp j - (pivot reference).comp j)
        = (readBox scene reference).lo.comp j by ring]
    rw [show (pivot reference).comp j
        + 1 * ((readBox scene reference).hi.comp j - (pivot reference).comp j)
        = (readBox scene reference).hi.comp j by ring]
    rw [min_eq_left (readBox_lo_le_hi scene reference j),
      max_eq_right (readBox_lo_le_hi scene reference j)]
    rw [setComp_comp_of_self, setComp_comp_of_self]
  have ht0 : refShiftLo scene pivot 1 j reference = 0 := by
    unfold refShiftLo
    rw [hend, vec_sub_self, maskAxis_zero_vec]
  have ht1 : refShiftHi scene pivot 1 j reference = 0 := by
    unfold refShiftHi
    rw [hend, vec_sub_self, maskAxis_zero_vec]
  have hfac : ∀ nm f, (nm, f) ∈ scaleFactors scene pivot groups 1 j reference →
      (scene nm).lo.comp j ≠ (scene nm).hi.comp j → f = 1 := by
    intro nm f hmem hne
    unfold scaleFactors at hmem
    rcases List.mem_map.mp hmem with ⟨nm', _, heq⟩
    simp only [hend] at heq
    rw [Prod.mk.injEq] at heq
    rcases heq with ⟨h1, h2⟩
    rw [← h1] at hne
    rw [← h2]
    rw [show (readBox scene nm').hi.comp j - (readBox scene nm').lo.comp j
        + (((readBox scene reference).hi.comp j - (readBox scene reference).hi.comp j)
          - ((readBox scene reference).lo.comp j - (readBox scene reference).lo.comp j))
        = (readBox scene nm').hi.comp j - (readBox scene nm').lo.comp j by ring]
    refine div_self ?_
    unfold readBox
    rw [sortBox_hi_comp, sortBox_lo_comp]
    exact max_sub_min_ne _ _ hne
  simp only [scaleRun, ht0, ht1] at hok
  split at hok
  · obtain rfl : (⟨scaleFactors scene pivot groups 1 j reference, 0, -(0 : Vec3 ℚ),
        (0 : Vec3 ℚ) - 0⟩ : ScaleEffects) = e := by
      exact Except.ok.injEq _ _ ▸ hok
    exact ⟨rfl, vec_neg_zero, vec_sub_self 0, hfac⟩
  · split at hok
    · obtain rfl : (⟨scaleFactors scene pivot groups 1 j reference, (0 : Vec3 ℚ), 0,
          (0 : Vec3 ℚ)⟩ : ScaleEffects) = e := by
        exact Except.ok.injEq _ _ ▸ hok
      exact ⟨rfl, rfl, rfl, hfac⟩
    · split at hok
      · obtain rfl : (⟨scaleFactors scene pivot groups 1 j reference, (0 : Vec3 ℚ) - 0,
            -(0 : Vec3 ℚ), 0⟩ : ScaleEffects) = e := by
          exact Except.ok.injEq _ _ ▸ hok
        exact ⟨vec_sub_self 0, vec_neg_zero, rfl, hfac⟩
      · exact absurd hok (by simp)

/-- Witness for C7 at a nondegenerate member. -/
theorem c7_factor_one_is_noop_witness :
    scaleRun sceneCube pivotM groupsRM 1 0 "r" "scale" =
      Except.ok ⟨[("m", 1)], 0, 0, 0⟩ ∧
    ((⟨[("m", 1)], 0, 0, 0⟩ : ScaleEffects).minShift = 0 ∧
      (⟨[("m", 1)], 0, 0, 0⟩ : ScaleEffects).scaleShift = 0 ∧
      (⟨[("m", 1)], 0, 0, 0⟩ : ScaleEffects).maxShift = 0 ∧
      ∀ nm f, (nm, f) ∈ (⟨[("m", 1)], 0, 0, 0⟩ : ScaleEffects).memberFactors →
        (sceneCube nm).lo.comp 0 ≠ (sceneCube nm).hi.comp 0 → f = 1) := by
  have heq : scaleRun sceneCube pivotM groupsRM 1 0 "r" "scale" =
      Except.ok ⟨[("m", 1)], 0, 0, 0⟩ := by
    norm_num +decide [scaleRun, scaleFactors, sceneCube, pivotM, groupsRM, endRefBox,
      resizeBox, readBox, sortBox, refShiftLo, refShiftHi, maskAxis_mk_zero, setComp_mk_zero,
      comp_mk_zero, vec_mk_sub, vec_mk_neg, vec_zero_mk, List.filter, List.map,
      min_def, max_def]
  exact ⟨heq, c7_factor_one_is_noop sceneCube pivotM groupsRM 0 "r" "scale" _ heq⟩

/-! ## C6 -/

lemma length_filter_lt {α : Type} (p : α → Bool) :
    ∀ (l : List α) (a : α), a ∈ l → p a = false → (l.filter p).length < l.length := by
  intro l
  induction l with
  | nil => intro a ha; cases ha
  | cons b l ih =>
      intro a ha hpa
      rcases List.mem_cons.mp ha with rfl | ha
      · rw [List.filter_cons, if_neg (by simp [hpa])]
        exact Nat.lt_succ_of_le (List.length_filter_le p l)
      · rw [List.filter_cons]
        by_cases hb : p b = true
        · rw [if_pos (by simp [hb])]
          exact Nat.succ_lt_succ (ih a ha hpa)
        · rw [if_neg (by simpa using hb)]
          exact Nat.lt_succ_of_lt (ih a ha hpa)

lemma dissolveNearM_length_lt (pt : Vec3 ℚ) (mesh : List (Vec3 ℚ × Bool))
    (w : Vec3 ℚ × Bool) (hw : w ∈ mesh) (hclose : sqDist w.1 pt < 1 / 4) :
    (dissolveNearM pt mesh).length < mesh.length := by
  unfold dissolveNearM
  have hmem : (w.1, false) ∈ mesh.map (fun v => (v.1, false)) := List.mem_map_of_mem _ hw
  have hlt := length_filter_lt (fun v => !(decide (sqDist v.1 pt < 1 / 4)))
    (mesh.map (fun v => (v.1, false))) (w.1, false)
    hmem (by simpa using hclose)
  rwa [List.length_map] at hlt

/-- C6: `limit_dissolve` terminates — iterating `dissolve_next` reaches,
within at most as many iterations as there are vertices, a state whose scan
finds no vertex below the limit — and in that final state no vertex's
coordinate along the chosen axis is below the limit. -/
theorem c6_limit_dissolve_terminates (j : Fin 3) (limit : ℚ)
    (mesh : List (Vec3 ℚ × Bool)) :
    ∃ n, n ≤ mesh.length ∧
      findBelow j limit ((stepLD j limit)^[n] mesh) = none ∧
      ∀ v ∈ (stepLD j limit)^[n] mesh, ¬ v.1.comp j < limit := by
  have main : ∀ (N : ℕ) (ms : List (Vec3 ℚ × Bool)), ms.length ≤ N →
      ∃ n, n ≤ ms.length ∧ findBelow j limit ((stepLD j limit)^[n] ms) = none ∧
        ∀ v ∈ (stepLD j limit)^[n] ms, ¬ v.1.comp j < limit := by
    intro N
    induction N with
    | zero =>
        intro ms hlen
        have hnil : ms = [] := List.eq_nil_of_length_eq_zero (Nat.le_zero.mp hlen)
        subst hnil
        exact ⟨0, le_refl 0, rfl, by intro v hv; cases hv⟩
    | succ N ih =>
        intro ms hlen
        cases hf : findBelow j limit ms with
        | none =>
            refine ⟨0, Nat.zero_le _, hf, ?_⟩
            intro v hv
            have := List.find?_eq_none.mp hf v hv
            simpa using this
        | some v =>
            have hvmem : v ∈ ms := List.mem_of_find?_eq_some hf
            have hlt : (dissolveNearM v.1 ms).length < ms.length :=
              dissolveNearM_length_lt v.1 ms v hvmem (by rw [sqDist_self]; norm_num)
            obtain ⟨n, hn, hfind, hpost⟩ := ih (dissolveNearM v.1 ms)
              (Nat.le_of_lt_succ (lt_of_lt_of_le hlt hlen))
            have hstep : stepLD j limit ms = dissolveNearM v.1 ms := by
              unfold stepLD
              rw [hf]
            refine ⟨n + 1, Nat.succ_le_of_lt (lt_of_le_of_lt hn hlt), ?_, ?_⟩
            · rw [Function.iterate_succ_apply, hstep]
              exact hfind
            · rw [Function.iterate_succ_apply, hstep]
              exact hpost
  exact main mesh.length mesh (le_refl _)

/-- Witness for C6: the spec's sample mesh with vertices at
z = -1, -1/2, 1/2, 1 and `limit_dissolve(axis=Z, limit=0)`. -/
theorem c6_limit_dissolve_terminates_witness :
    ∃ n, n ≤ meshZ.length ∧
      findBelow 2 0 ((stepLD 2 0)^[n] meshZ) = none ∧
      ∀ v ∈ (stepLD 2 0)^[n] meshZ, ¬ v.1.comp 2 < 0 :=
  c6_limit_dissolve_terminates 2 0 meshZ

/-! ## C9 -/

/-- C9: `dissolve_near_selected_vertex` fails with the selection-cardinality
error exactly when the number of selected vertices differs from one; with a
single selected vertex it delegates to `dissolve_near` at that vertex's
position, removing precisely the vertices strictly within distance 0.5. -/
theorem c9_selected_vertex_guard :
    (∀ mesh : List (Vec3 ℚ × Bool),
      (∃ msg, dissolveNearSelected mesh = Except.error msg) ↔
        (mesh.filter (fun v => v.2)).length ≠ 1) ∧
    (∀ (mesh : List (Vec3 ℚ × Bool)) (v : Vec3 ℚ × Bool),
      mesh.filter (fun v => v.2) = [v] →
        dissolveNearSelected mesh = Except.ok (dissolveNearM v.1 mesh) ∧
        (∀ w ∈ dissolveNearM v.1 mesh, ¬ sqDist w.1 v.1 < 1 / 4) ∧
        (∀ w ∈ mesh, ¬ sqDist w.1 v.1 < 1 / 4 →
          (w.1, false) ∈ dissolveNearM v.1 mesh)) := by
  constructor
  · intro mesh
    cases hf : mesh.filter (fun v => v.2) with
    | nil =>
        constructor
        · intro _
          decide
        · intro _
          refine ⟨"Exactly one vertex must be selected.", ?_⟩
          unfold dissolveNearSelected
          rw [hf]
    | cons a t =>
        cases t with
        | nil =>
            constructor
            · rintro ⟨msg, hmsg⟩
              unfold dissolveNearSelected at hmsg
              rw [hf] at hmsg
              cases hmsg
            · intro hlen
              simp at hlen
        | cons b t' =>
            constructor
            · intro _
              simp
            · intro _
              refine ⟨"Exactly one vertex must be selected.", ?_⟩
              unfold dissolveNearSelected
              rw [hf]
  · intro mesh v hf
    refine ⟨?_, ?_, ?_⟩
    · unfold dissolveNearSelected
      rw [hf]
    · intro w hw
      unfold dissolveNearM at hw
      have := List.of_mem_filter hw
      simpa using this
    · intro w hw hfar
      unfold dissolveNearM
      refine List.mem_filter.mpr ⟨List.mem_map_of_mem _ hw, ?_⟩
      simpa using hfar

/-- Witness for C9: a mesh with exactly one selected vertex at the origin. -/
theorem c9_selected_vertex_guard_witness :
    dissolveNearSelected meshSel = Except.ok (dissolveNearM ⟨0, 0, 0⟩ meshSel) ∧
    (∀ w ∈ dissolveNearM ⟨0, 0, 0⟩ meshSel, ¬ sqDist w.1 ⟨0, 0, 0⟩ < 1 / 4) ∧
    (∀ w ∈ meshSel, ¬ sqDist w.1 ⟨0, 0, 0⟩ < 1 / 4 →
      (w.1, false) ∈ dissolveNearM ⟨0, 0, 0⟩ meshSel) := by
  have hf : meshSel.filter (fun v => v.2) = [(⟨0, 0, 0⟩, true)] := by
    norm_num [meshSel, List.filter]
  exact c9_selected_vertex_guard.2 meshSel (⟨0, 0, 0⟩, true) hf

/-! ## C1 -/

lemma kdFind_singleton (p q : Vec3 ℝ) :
    kdFind [p] q = (p, 0, Real.sqrt (sqDist p q)) := rfl

lemma candidateLoc_envA (n : ℕ) : candidateLoc envA (drawsA n) = ⟨0, 0, 2⟩ := by
  unfold candidateLoc envA drawsA
  rw [Vec3.mk.injEq]
  refine ⟨?_, ?_, ?_⟩ <;> norm_num [Real.sin_zero, Real.cos_zero]

lemma acceptsA_holds : accepts envA (drawsA 0) := by
  unfold accepts
  rw [candidateLoc_envA]
  show ((⟨0, 0, 2⟩ : Vec3 ℝ)).z > (kdFind envA.terrain ⟨0, 0, 2⟩).2.2
  rw [show envA.terrain = [⟨0, 0, 3⟩] from rfl, kdFind_singleton]
  show (2 : ℝ) > Real.sqrt (sqDist ⟨0, 0, 3⟩ ⟨0, 0, 2⟩)
  rw [show sqDist (⟨0, 0, 3⟩ : Vec3 ℝ) ⟨0, 0, 2⟩ = 1 by norm_num [sqDist], Real.sqrt_one]
  norm_num

/-- C1 (failing input): terrain vertex `(0,0,3)`, sphere centre at the
origin, draws `(distance 2, theta 0, phi 0)`.  The candidate `(0,0,2)` is
*accepted* at the first iteration and returned — `location[2] = 2` exceeds
`closest_vertex[2] = 1`, the third component of the `(co, index, dist)`
triple returned by the k-d tree's `find`, which is the distance to the
nearest vertex, not its height — yet the nearest terrain point's
z-coordinate, 3, is strictly above the returned camera location,
contradicting the claim that every returned location is strictly above the
queried terrain point. -/
theorem c1_accepted_candidate_below_terrain :
    legalDraw envA (drawsA 0) ∧
    loopFuel envA drawsA 1 0 = some ⟨0, 0, 2⟩ ∧
    (kdFind envA.terrain ⟨0, 0, 2⟩).1.z > ((⟨0, 0, 2⟩ : Vec3 ℝ)).z := by
  refine ⟨⟨le_refl _, le_refl _⟩, ?_, ?_⟩
  · simp only [loopFuel]
    rw [if_pos acceptsA_holds, candidateLoc_envA]
  · rw [show envA.terrain = [⟨0, 0, 3⟩] from rfl, kdFind_singleton]
    show (3 : ℝ) > 2
    norm_num

/-! ## C5 -/

lemma kdFind_dist_nonneg (pts : List (Vec3 ℝ)) (q : Vec3 ℝ) : 0 ≤ (kdFind pts q).2.2 := by
  unfold kdFind
  cases nearestQ pts q with
  | none => exact le_refl 0
  | some pi =>
      obtain ⟨p, i⟩ := pi
      exact Real.sqrt_nonneg _

lemma drawsB_never_accepted (n : ℕ) : ¬ accepts envB (drawsB n) := by
  unfold accepts
  intro h
  have hz : (candidateLoc envB (drawsB n)).z = 0 := by
    show (0 : ℝ) + 1 * Real.cos (Real.pi / 2) = 0
    rw [Real.cos_pi_div_two]
    ring
  rw [hz] at h
  exact (not_lt.mpr (kdFind_dist_nonneg envB.terrain (candidateLoc envB (drawsB n)))) h

/-- C5 (counterexample): with `camera_theta = [pi/2, pi/2]` and the sphere
centre at z = 0, every legal draw places the candidate at z = 0 while the
distance to the nearest terrain vertex is nonnegative, so no draw is ever
accepted: the `while True:` loop yields no result after any finite number of
iterations — it loops forever, and no retry cap or
`CameraPlacementTimeoutError` exists in the code. -/
theorem c5_overconstrained_config_never_exits :
    (∀ n, legalDraw envB (drawsB n)) ∧
    (¬ ∃ n, accepts envB (drawsB n)) ∧
    (∀ fuel i, loopFuel envB drawsB fuel i = none) := by
  have hnone : ∀ fuel i, loopFuel envB drawsB fuel i = none := by
    intro fuel
    induction fuel with
    | zero => intro i; rfl
    | succ fuel ih =>
        intro i
        simp only [loopFuel]
        rw [if_neg (drawsB_never_accepted i)]
        exact ih (i + 1)
  exact ⟨fun n => ⟨le_refl _, le_refl _⟩,
    fun hx => drawsB_never_accepted hx.choose hx.choose_spec, hnone⟩

lemma loopFuel_first_accept (env : CamEnv) (draws : ℕ → CamDraw) :
    ∀ (k i : ℕ), (∀ m, m < k → ¬ accepts env (draws (i + m))) →
      accepts env (draws (i + k)) →
      loopFuel env draws (k + 1) i = some (candidateLoc env (draws (i + k))) := by
  intro k
  induction k with
  | zero =>
      intro i _ hacc
      simp only [loopFuel]
      rw [if_pos (show accepts env (draws i) from hacc)]
      exact rfl
  | succ k ih =>
      intro i hprev hacc
      simp only [loopFuel]
      rw [if_neg (by simpa using hprev 0 (Nat.succ_pos k))]
      have hstep : ∀ m, m < k → ¬ accepts env (draws (i + 1 + m)) := by
        intro m hm
        have h := hprev (m + 1) (Nat.succ_lt_succ hm)
        rwa [show i + (m + 1) = i + 1 + m by omega] at h
      have hacc' : accepts env (draws (i + 1 + k)) := by
        rwa [show i + 1 + k = i + (k + 1) by omega]
      have hres := ih (i + 1) hstep hacc'
      rwa [show i + 1 + k = i + (k + 1) by omega] at hres

/-- C5 (amended): the rejection loop has no iteration bound and no timeout:
if no draw ever satisfies the acceptance check the loop yields nothing at
every finite iteration count (it never exits), and if the first accepted
draw is the `n`-th the loop exits there with that draw's candidate
location. -/
theorem c5_loop_exits_iff_draw_accepted (env : CamEnv) (draws : ℕ → CamDraw) :
    ((∀ n, ¬ accepts env (draws n)) → ∀ fuel i, loopFuel env draws fuel i = none) ∧
    (∀ n, (∀ m, m < n → ¬ accepts env (draws m)) → accepts env (draws n) →
      loopFuel env draws (n + 1) 0 = some (candidateLoc env (draws n))) := by
  constructor
  · intro hrej fuel
    induction fuel with
    | zero => intro i; rfl
    | succ fuel ih =>
        intro i
        simp only [loopFuel]
        rw [if_neg (hrej i)]
        exact ih (i + 1)
  · intro n hprev hacc
    have hres := loopFuel_first_accept env draws n 0
      (fun m hm => by simpa using hprev m hm) (by simpa using hacc)
    simpa using hres

/-- Witness for C5's amended statement: the over-constrained environment
yields `none` at fuel 5, and the accepting environment of C1 exits at the
first iteration. -/
theorem c5_loop_exits_iff_draw_accepted_witness :
    loopFuel envB drawsB 5 0 = none ∧
    loopFuel envA drawsA 1 0 = some (candidateLoc envA (drawsA 0)) :=
  ⟨(c5_loop_exits_iff_draw_accepted envB drawsB).1 drawsB_never_accepted 5 0,
   (c5_loop_exits_iff_draw_accepted envA drawsA).2 0
     (fun m hm => absurd hm (Nat.not_lt_zero m)) acceptsA_holds⟩
